import Mathlib

/-!
Verification development for the micropip resolution-and-installation
transaction engine.  The repository ships its test suite and a logging
utility; the core module `micropip/_micropip.py` itself is not present, so
every definition below is modelled from the natural-language specification
(spec.md) of that core, as indicated by the `Modelled from the spec:` doc
comments.  Strings are processed as explicit character lists so that all
definitions are executable and kernel-reducible.
-/

deriving instance DecidableEq for Except

namespace Micropip

/-! ## Character-list utilities -/

/-- Lowercase a character (ASCII). -/
def lowerChar (c : Char) : Char := c.toLower

/-- Characters of the word, up to (excluding) the first occurrence of `c`. -/
def takeUntil (c : Char) : List Char → List Char
  | [] => []
  | x :: xs => if x = c then [] else x :: takeUntil c xs

/-- Split a character list at the first occurrence of `c`, dropping it;
`none` when `c` does not occur. -/
def splitAtFirst (c : Char) : List Char → Option (List Char × List Char)
  | [] => none
  | x :: xs =>
    if x = c then some ([], xs)
    else
      match splitAtFirst c xs with
      | none => none
      | some (a, b) => some (x :: a, b)

/-- Split a character list on every occurrence of `c`; always nonempty. -/
def splitOnChar (c : Char) : List Char → List (List Char)
  | [] => [[]]
  | x :: xs =>
    if x = c then [] :: splitOnChar c xs
    else
      match splitOnChar c xs with
      | [] => [[x]]
      | s :: ss => (x :: s) :: ss

/-- Last element of a list of segments (empty segment for an empty list). -/
def lastSeg : List (List Char) → List Char
  | [] => []
  | [x] => x
  | _ :: x :: xs => lastSeg (x :: xs)

/-- Numeric value of a digit string (most significant digit first). -/
def natOfDigits (l : List Char) : Nat :=
  l.foldl (fun acc c => 10 * acc + (c.toNat - 48)) 0

/-- A nonempty, all-digits segment. -/
def isNumSeg (l : List Char) : Bool :=
  !l.isEmpty && l.all Char.isDigit

/-- Collapse runs of dashes into a single dash. -/
def collapseDashes : List Char → List Char
  | [] => []
  | '-' :: '-' :: rest => collapseDashes ('-' :: rest)
  | x :: rest => x :: collapseDashes rest

/-- Normalize a single package-name character: `_` and `.` become `-`,
letters are lowercased. -/
def normChar (c : Char) : Char :=
  if c = '_' || c = '.' then '-' else lowerChar c

/-- Modelled from the spec: package-name normalization for the missing core
(`_micropip.py`): lowercase, with `_`/`-`/`.` collapsed to `-` (§3,
ArtifactReference). -/
def normName (s : String) : String :=
  List.asString (collapseDashes (s.toList.map normChar))

/-- Lexicographic strict order on character lists (plain string order,
used only to contrast with version order). -/
def charListLt : List Char → List Char → Bool
  | [], [] => false
  | [], _ :: _ => true
  | _ :: _, [] => false
  | a :: as, b :: bs => if a < b then true else if b < a then false else charListLt as bs

/-! ## Versions (spec §4.1, Version & Marker Evaluator) -/

/-- Modelled from the spec: a parsed version of the missing core's
Version & Marker Evaluator — epoch, numeric release segments, optional
pre-release segment (phase 0 = a, 1 = b, 2 = rc, with its number),
optional post-release and dev-release numbers (§4.1). -/
structure Version where
  epoch : Nat
  release : List Nat
  pre : Option (Nat × Nat)
  post : Option Nat
  dev : Option Nat
deriving DecidableEq, Repr

/-- Three-valued comparison on `Nat`. -/
def cmpNat (a b : Nat) : Ordering :=
  if a < b then Ordering.lt else if b < a then Ordering.gt else Ordering.eq

/-- Compare an implicit run of zeros against the list `bs`
(zero-padding of the shorter release). -/
def cmpZeros : List Nat → Ordering
  | [] => Ordering.eq
  | b :: bs => (cmpNat 0 b).then (cmpZeros bs)

/-- Modelled from the spec: component-wise numeric comparison of release
segments, padding the shorter release with zeros (§4.1). -/
def padCompare : List Nat → List Nat → Ordering
  | [], bs => cmpZeros bs
  | a :: as, [] => (cmpZeros (a :: as)).swap
  | a :: as, b :: bs => (cmpNat a b).then (padCompare as bs)

/-- Sort key of the pre-release segment: a dev-only release sorts before
every pre-release, a pre-release before the plain release. -/
def preKey (v : Version) : Nat × Nat × Nat :=
  match v.pre with
  | some (ph, n) => (1, ph, n)
  | none => if v.post.isNone && v.dev.isSome then (0, 0, 0) else (2, 0, 0)

/-- Sort key of the post-release segment: absent sorts first. -/
def postKey (v : Version) : Nat × Nat :=
  match v.post with
  | some n => (1, n)
  | none => (0, 0)

/-- Sort key of the dev-release segment: absent sorts last. -/
def devKey (v : Version) : Nat × Nat :=
  match v.dev with
  | some n => (0, n)
  | none => (1, 0)

/-- Lexicographic comparison of triples of naturals. -/
def keyCmp3 (x y : Nat × Nat × Nat) : Ordering :=
  (cmpNat x.1 y.1).then ((cmpNat x.2.1 y.2.1).then (cmpNat x.2.2 y.2.2))

/-- Lexicographic comparison of pairs of naturals. -/
def keyCmp2 (x y : Nat × Nat) : Ordering :=
  (cmpNat x.1 y.1).then (cmpNat x.2 y.2)

/-- Modelled from the spec: `compare(a, b)` of the Version & Marker
Evaluator — release segments compare component-wise, a pre-release orders
before its final release, dev before pre, post after final (§4.1). -/
def versionCmp (a b : Version) : Ordering :=
  (cmpNat a.epoch b.epoch).then
    ((padCompare a.release b.release).then
      ((keyCmp3 (preKey a) (preKey b)).then
        ((keyCmp2 (postKey a) (postKey b)).then
          (keyCmp2 (devKey a) (devKey b)))))

/-- Strict version order as a boolean. -/
def vlt (a b : Version) : Bool := versionCmp a b == Ordering.lt

/-- Modelled from the spec: a version is a pre-release iff it carries a
pre-release or dev segment (§4.1 eligibility policy). -/
def isPre (v : Version) : Bool := v.pre.isSome || v.dev.isSome

/-! ## Version parsing (grammar `[N!]N(.N)*[{a|b|rc}N][.postN][.devN]`) -/

/-- Parse a segment of the form `N{a|b|rc}N` (release number with attached
pre-release), e.g. `1a1`, `2rc3`. -/
def parsePreSeg (l : List Char) : Option (Nat × Nat × Nat) :=
  let p1 := l.span Char.isDigit
  if p1.1.isEmpty then none
  else
    let p2 := p1.2.span (fun c => !c.isDigit)
    if p2.2.isEmpty || !p2.2.all Char.isDigit then none
    else
      match p2.1 with
      | ['a'] => some (natOfDigits p1.1, 0, natOfDigits p2.2)
      | ['b'] => some (natOfDigits p1.1, 1, natOfDigits p2.2)
      | ['r', 'c'] => some (natOfDigits p1.1, 2, natOfDigits p2.2)
      | _ => none

/-- Parse a `postN` segment. -/
def parsePostSeg (l : List Char) : Option Nat :=
  match l with
  | 'p' :: 'o' :: 's' :: 't' :: rest =>
    if isNumSeg rest then some (natOfDigits rest) else none
  | _ => none

/-- Parse a `devN` segment. -/
def parseDevSeg (l : List Char) : Option Nat :=
  match l with
  | 'd' :: 'e' :: 'v' :: rest =>
    if isNumSeg rest then some (natOfDigits rest) else none
  | _ => none

/-- Parse the trailing `[.postN][.devN]` segments. -/
def parsePostDev : List (List Char) → Option (Option Nat × Option Nat)
  | [] => some (none, none)
  | [s] =>
    match parsePostSeg s with
    | some n => some (some n, none)
    | none =>
      match parseDevSeg s with
      | some n => some (none, some n)
      | none => none
  | [s, t] =>
    match parsePostSeg s, parseDevSeg t with
    | some n, some m => some (some n, some m)
    | _, _ => none
  | _ => none

/-- Interpret the dot-separated segments after the epoch: leading numeric
segments form the release, an optional `N{a|b|rc}N` segment closes the
release with a pre-release, then optional `postN`/`devN` segments. -/
def parseSegs (epoch : Nat) : List (List Char) → List Nat → Option Version
  | [], acc => if acc.isEmpty then none else some ⟨epoch, acc, none, none, none⟩
  | s :: rest, acc =>
    if isNumSeg s then parseSegs epoch rest (acc ++ [natOfDigits s])
    else
      match parsePreSeg s with
      | some (n, ph, pn) =>
        match parsePostDev rest with
        | some (post, dev) => some ⟨epoch, acc ++ [n], some (ph, pn), post, dev⟩
        | none => none
      | none =>
        if acc.isEmpty then none
        else
          match parsePostDev (s :: rest) with
          | some (post, dev) => some ⟨epoch, acc, none, post, dev⟩
          | none => none

/-- Modelled from the spec: parsing of version strings under the grammar
`[N!]N(.N)*[{a|b|rc}N][.postN][.devN]`; a string that does not parse is
rejected, not silently accepted (§4.1). -/
def parseVersionChars (l : List Char) : Option Version :=
  match splitAtFirst '!' l with
  | none => parseSegs 0 (splitOnChar '.' l) []
  | some (e, rest) =>
    if isNumSeg e then parseSegs (natOfDigits e) (splitOnChar '.' rest) []
    else none

/-- String-level wrapper of `parseVersionChars`. -/
def parseVersion (s : String) : Option Version := parseVersionChars s.toList

/-! ## Version specifiers (spec §4.1, `satisfies`) -/

/-- Comparison operators of a version constraint clause. -/
inductive SpecOp
  | eq | ne | ltOp | le | gtOp | ge | compat
deriving DecidableEq, Repr

/-- Modelled from the spec: evaluation of one comparison clause of a
version constraint (§4.1 `satisfies`). -/
def satisfiesClause (v : Version) (c : SpecOp × Version) : Bool :=
  match c.1 with
  | SpecOp.eq => versionCmp v c.2 == Ordering.eq
  | SpecOp.ne => versionCmp v c.2 != Ordering.eq
  | SpecOp.ltOp => versionCmp v c.2 == Ordering.lt
  | SpecOp.le => versionCmp v c.2 != Ordering.gt
  | SpecOp.gtOp => versionCmp v c.2 == Ordering.gt
  | SpecOp.ge => versionCmp v c.2 != Ordering.lt
  | SpecOp.compat =>
    (versionCmp v c.2 != Ordering.lt) && c.2.release.dropLast.isPrefixOf v.release

/-- Modelled from the spec: `satisfies(version, constraint)` evaluates the
clauses conjunctively (§4.1). -/
def satisfies (v : Version) (spec : List (SpecOp × Version)) : Bool :=
  spec.all (satisfiesClause v)

/-! ## Compatibility tags and the platform descriptor (spec §4.2) -/

/-- A compatibility tag triple (interpreter, ABI, platform). -/
structure Tag where
  interp : String
  abi : String
  plat : String
deriving DecidableEq, Repr

/-- Modelled from the spec: the Platform Descriptor of the missing core —
interpreter tag, ABI tag, platform tag, the expected runtime-build
identifier embedded in the platform tag, and the language minor version
used for interpreter-agnostic `py3`-family tags (§3, §4.2). -/
structure PlatformDesc where
  interp : String
  abi : String
  plat : String
  build : String
  minor : Nat
deriving DecidableEq, Repr

/-- Error taxonomy of the Compatibility Tag Matcher and its callers
(spec §7): each sub-kind carries the data its message names. -/
inductive PipError
  | notFound (name : String)
  | noCompatibleArtifact (name : String)
  | incompatiblePlatform (wheelPlat runtimePlat : String)
  | incompatibleRuntimeBuild (wheelBuild runtimeBuild : String)
  | incompatibleAbi (abi : String)
  | incompatibleInterpreter (interp : String)
  | malformedArtifactName (filename : String)
  | notAWheel (filename : String)
  | invalidVersion (version : String)
  | fetchFailed (url : String)
  | aggregate (failed : List String)
  | outOfFuel
deriving DecidableEq, Repr

/-- Does the character list start with the given pattern? -/
def startsWithChars (pat l : List Char) : Bool := pat.isPrefixOf l

/-- Does the character list end with the given pattern? -/
def endsWithChars (pat l : List Char) : Bool := pat.isSuffixOf l

/-- A platform tag of the runtime's family: `emscripten_<build>_wasm32`. -/
def emscriptenFamily (plat : List Char) : Bool :=
  startsWithChars "emscripten_".toList plat && endsWithChars "_wasm32".toList plat

/-- The runtime-build identifier embedded in an `emscripten_*_wasm32`
platform tag, with underscores turned into dots (`emscripten_2_0_27_wasm32`
embeds `2.0.27`). -/
def embeddedBuild (plat : List Char) : String :=
  List.asString
    (((plat.drop "emscripten_".length).take
        (plat.length - "emscripten_".length - "_wasm32".length)).map
      (fun c => if c = '_' then '.' else c))

/-- Modelled from the spec: the platform-tag check — the platform tag must
equal the platform's tag exactly or be the universal `any`; a coarse
family match whose embedded runtime-build identifier differs from the
running runtime's build is a distinct, more specific failure than a
generic platform mismatch (§4.2). -/
def platCheck (p : PlatformDesc) (t : Tag) : Option PipError :=
  if t.plat == "any" || t.plat == p.plat then none
  else if emscriptenFamily t.plat.toList then
    if embeddedBuild t.plat.toList == p.build then none
    else some (PipError.incompatibleRuntimeBuild (embeddedBuild t.plat.toList) p.build)
  else some (PipError.incompatiblePlatform t.plat p.plat)

/-- Modelled from the spec: the ABI-tag check — the ABI tag must equal the
platform's ABI tag or one of the universal wildcards `none`/`abi3` (§4.2). -/
def abiCheck (p : PlatformDesc) (t : Tag) : Option PipError :=
  if t.abi == "none" || t.abi == "abi3" || t.abi == p.abi then none
  else some (PipError.incompatibleAbi t.abi)

/-- Specificity score of an interpreter tag, `none` when incompatible:
the platform's own interpreter tag is most specific, then the exact
`py3<minor>` tag, the bare `py3` tag, and older `py3X` tags in decreasing
order of `X`. -/
def interpScore (p : PlatformDesc) (interp : String) : Option Nat :=
  if interp == p.interp then some (p.minor + 3)
  else
    match interp.toList with
    | 'p' :: 'y' :: '3' :: rest =>
      if rest.isEmpty then some (p.minor + 1)
      else if rest.all Char.isDigit then
        let x := natOfDigits rest
        if x = p.minor then some (p.minor + 2)
        else if x < p.minor then some (x + 1)
        else none
      else none
    | _ => none

/-- Modelled from the spec: the interpreter-tag check — the interpreter
tag must equal the platform's tag or be an interpreter-agnostic tag of the
platform's `py3` family (§4.2). -/
def interpCheck (p : PlatformDesc) (t : Tag) : Option PipError :=
  match interpScore p t.interp with
  | some _ => none
  | none => some (PipError.incompatibleInterpreter t.interp)

/-- Modelled from the spec: compatibility of one declared tag against the
platform descriptor, checking platform, then ABI, then interpreter, each
with its own distinct error (§4.2, §7); `none` means compatible. -/
def checkTag (p : PlatformDesc) (t : Tag) : Option PipError :=
  match platCheck p t with
  | some e => some e
  | none =>
    match abiCheck p t with
    | some e => some e
    | none => interpCheck p t

/-- Specificity score of the platform component of a compatible tag. -/
def platScore (t : Tag) : Nat :=
  if t.plat == "any" then 0 else 1

/-- Specificity score of the ABI component of a compatible tag. -/
def abiScore (t : Tag) : Nat :=
  if t.abi == "none" then 0 else if t.abi == "abi3" then 1 else 2

/-- Modelled from the spec: the specificity index of one compatible tag —
index 0 is the least specific (most universal) tag, a rising index is more
specific; `none` when the tag is not compatible (§4.2 Ranking). -/
def tagIndex (p : PlatformDesc) (t : Tag) : Option Nat :=
  match checkTag p t with
  | some _ => none
  | none =>
    match interpScore p t.interp with
    | none => none
    | some i => some (1000 * platScore t + 100 * abiScore t + i)

/-! ## Artifact references and filename parsing (spec §3, §7) -/

/-- Modelled from the spec: an ArtifactReference (WheelInfo) — normalized
package name, version, filename, source URL, optional content digest and
the declared compatibility tags (§3). -/
structure WheelInfo where
  name : String
  version : Version
  filename : String
  url : String
  tags : List Tag
  digests : Option String
deriving DecidableEq, Repr

/-- Result of parsing a wheel filename: name, version and tags. -/
structure ParsedName where
  name : String
  version : Version
  tags : List Tag
deriving DecidableEq, Repr

/-- Expand a compressed interpreter tag set (`py2.py3`) into the declared
tag list, in the declared order. -/
def tagsOf (interp abi plat : List Char) : List Tag :=
  (splitOnChar '.' interp).map
    (fun i => { interp := List.asString i, abi := List.asString abi, plat := List.asString plat })

/-- Build a `ParsedName` from the name, version, interpreter, ABI and
platform segments of a wheel filename. -/
def mkParsed (n v i a p : List Char) : Except PipError ParsedName :=
  match parseVersionChars v with
  | none => Except.error (PipError.invalidVersion (List.asString v))
  | some ver =>
    Except.ok
      { name := normName (List.asString n), version := ver, tags := tagsOf i a p }

/-- Interpret the hyphen-split segments of a wheel filename stem:
exactly 5 segments (or 6 with a build tag) are accepted; any other
segment count is the wrong-segment-count parse error naming the
filename. -/
def parseParts (fn : List Char) : List (List Char) → Except PipError ParsedName
  | [n, v, i, a, p] => mkParsed n v i a p
  | [n, v, _b, i, a, p] => mkParsed n v i a p
  | _ => Except.error (PipError.malformedArtifactName (List.asString fn))

/-- Modelled from the spec: parsing an artifact (wheel) filename into
name/version/tags — the stem must split on `-` into exactly 5 segments
(or 6 with a build tag); a wrong segment count is the MalformedArtifactName
error naming the invalid filename (§7, §8). -/
def parseFilenameChars (fn : List Char) : Except PipError ParsedName :=
  if endsWithChars ".whl".toList fn then
    parseParts fn (splitOnChar '-' (fn.take (fn.length - 4)))
  else Except.error (PipError.notAWheel (List.asString fn))

/-- Is the candidate scheme prefix of a URL a well-formed scheme
(letters, digits, `+`, `-`, `.`, starting with a letter, no `/`)? -/
def isSchemeChars : List Char → Bool
  | [] => false
  | c :: rest =>
    c.isAlpha && rest.all (fun x => x.isAlpha || x.isDigit || x = '+' || x = '-' || x = '.')

/-- Strip a leading URL scheme (`https:`, `file:`, `emfs:`, ...) when
present. -/
def stripScheme (u : List Char) : List Char :=
  match splitAtFirst ':' u with
  | none => u
  | some (pre, rest) => if isSchemeChars pre then rest else u

/-- The filename a URL locates: the fragment and query are split off, the
scheme prefix is stripped, and the last path segment remains. -/
def urlFilename (u : List Char) : List Char :=
  lastSeg (splitOnChar '/' (stripScheme (takeUntil '?' (takeUntil '#' u))))

/-- Modelled from the spec: constructing an ArtifactReference from a URL —
the query (and fragment) is split off the URL, the scheme prefix is
stripped, the filename is the last path segment, and name/version/tags are
parsed from that filename alone; the stored filename excludes the query
parameters while the stored URL is the original one (§3, §4.4). -/
def from_urlChars (u : List Char) : Except PipError WheelInfo :=
  match parseFilenameChars (urlFilename u) with
  | Except.error e => Except.error e
  | Except.ok p =>
    Except.ok
      { name := p.name, version := p.version, filename := List.asString (urlFilename u),
        url := List.asString u, tags := p.tags, digests := none }

/-- String-level wrapper of `from_urlChars`. -/
def from_url (s : String) : Except PipError WheelInfo := from_urlChars s.toList

/-- The projection of a parsed artifact that does not depend on how the
URL located it: name, version, stored filename and declared tags. -/
def wheelCore (w : WheelInfo) : String × Version × String × List Tag :=
  (w.name, w.version, w.filename, w.tags)

/-- Modelled from the spec: `best_compatible_index(artifact, platform)` —
the index of the most specific compatible declared tag, `none` when no
declared tag is compatible (§4.2). -/
def bestTagIndex (p : PlatformDesc) (w : WheelInfo) : Option Nat :=
  w.tags.foldl
    (fun acc t =>
      match tagIndex p t, acc with
      | some i, some j => some (max i j)
      | some i, none => some i
      | none, acc => acc)
    none

/-- Modelled from the spec: wheel-level compatibility validation — the
wheel is compatible when at least one declared tag is compatible, and
otherwise fails with the tag matcher's error for its declared tag
(§4.2, §4.4 fail-fast URL path); `none` means compatible. -/
def check_compatible (p : PlatformDesc) (w : WheelInfo) : Option PipError :=
  if w.tags.any (fun t => (checkTag p t).isNone) then none
  else
    match w.tags with
    | [] => some (PipError.malformedArtifactName w.filename)
    | t :: _ => checkTag p t

/-- The running platform of the concrete scenarios: CPython 3.10 on
Emscripten 3.1.14 / wasm32, as fixed by the repository's test suite. -/
def pyPlatform : PlatformDesc :=
  { interp := "cp310", abi := "cp310", plat := "emscripten_3_1_14_wasm32",
    build := "3.1.14", minor := 10 }

/-! ## Artifact Resolver (spec §4.3, `find_wheel`) -/

/-- One artifact descriptor of a release index entry: filename and URL. -/
structure FileInfo where
  filename : String
  url : String
deriving DecidableEq, Repr

/-- A registry's release index: version string to artifact descriptors,
read-only (§3 ReleaseIndex). -/
def ReleaseIndex := List (String × List FileInfo)

/-- Insert into a descending-sorted list under the boolean order `lt`. -/
def insertDesc {α : Type} (lt : α → α → Bool) (x : α) : List α → List α
  | [] => [x]
  | y :: ys => if lt y x then x :: y :: ys else y :: insertDesc lt x ys

/-- Insertion sort, descending under the boolean order `lt`. -/
def sortDesc {α : Type} (lt : α → α → Bool) : List α → List α
  | [] => []
  | x :: xs => insertDesc lt x (sortDesc (lt) xs)

/-- Modelled from the spec: version eligibility — the version must satisfy
the requirement's constraint, and unless allow-pre is set it must have no
pre-release/dev segment (§4.1 Policy, §4.3). -/
def versionEligible (pre : Bool) (spec : List (SpecOp × Version)) (v : Version) : Bool :=
  (pre || !isPre v) && satisfies v spec

/-- The release-index entries whose version string parses, paired with
their parsed version (§4.3: versions that fail to parse are skipped). -/
def parsedIndex (idx : ReleaseIndex) : List (Version × List FileInfo) :=
  idx.filterMap (fun p => (parseVersionChars p.1.toList).map (fun v => (v, p.2)))

/-- The eligible entries of a release index under the requirement's
constraint and the pre-release policy. -/
def eligiblePairs (idx : ReleaseIndex) (spec : List (SpecOp × Version)) (pre : Bool) :
    List (Version × List FileInfo) :=
  (parsedIndex idx).filter (fun p => versionEligible pre spec p.1)

/-- The parseable wheels of one release, paired with their best
compatible tag index; incompatible or unparseable artifacts yield no
candidate (§4.2: no compatible tag is no match, not a worst rank). -/
def wheelCandidates (p : PlatformDesc) (files : List FileInfo) : List (WheelInfo × Nat) :=
  files.filterMap
    (fun f =>
      match from_urlChars f.url.toList with
      | Except.ok w => (bestTagIndex p w).map (fun i => (w, i))
      | Except.error _ => none)

/-- Modelled from the spec: among one version's artifacts, the artifact
whose best compatible tag index is numerically greatest; `none` when the
version has no compatible artifact (§4.2 Ranking, §4.3). -/
def bestOfVersion (p : PlatformDesc) (files : List FileInfo) : Option WheelInfo :=
  (wheelCandidates p files).foldl
    (fun acc c =>
      match acc with
      | none => some c
      | some b => if b.2 < c.2 then some c else some b)
    none |>.map (fun c => c.1)

/-- The best compatible tag index across one version's artifacts. -/
def bestIndexOfFiles (p : PlatformDesc) (files : List FileInfo) : Option Nat :=
  (wheelCandidates p files).foldl
    (fun acc c =>
      match acc with
      | none => some c.2
      | some j => some (max j c.2))
    none

/-- Strict order on index entries by version, for newest-first sorting. -/
def pairVlt (a b : Version × List FileInfo) : Bool := vlt a.1 b.1

/-- First (newest) entry that has a compatible artifact, walking the
descending-sorted eligible entries (§4.3). -/
def firstCompatible (p : PlatformDesc) : List (Version × List FileInfo) → Option WheelInfo
  | [] => none
  | e :: rest =>
    match bestOfVersion p e.2 with
    | some w => some w
    | none => firstCompatible p rest

/-- Modelled from the spec: `find_wheel` — iterate releases from newest to
oldest eligible version and select the artifact of the first version that
has at least one compatible artifact, never the globally best tag score;
when releases exist but none pass, fail with the no-compatible-artifact
error, distinct from not-found (§4.3). -/
def find_wheel (p : PlatformDesc) (idx : ReleaseIndex) (name : String)
    (spec : List (SpecOp × Version)) (pre : Bool) : Except PipError WheelInfo :=
  match firstCompatible p (sortDesc pairVlt (eligiblePairs idx spec pre)) with
  | some w => Except.ok w
  | none => Except.error (PipError.noCompatibleArtifact name)

/-! ## Markers, requirements and package metadata (spec §3, §4.4, §6) -/

/-- Modelled from the spec: the marker mini-language — a small boolean
expression over the injected `extra` variable, evaluated as a tagged
expression tree against a context record (§4.1, §9). -/
inductive MarkerExpr
  | extraIs (s : String)
  | conj (a b : MarkerExpr)
  | disj (a b : MarkerExpr)
deriving DecidableEq, Repr

/-- Evaluate a marker expression against the currently bound extra; with
no extra bound, an `extra == ...` test is false (§4.1: unknown variables
take a context-defined default). -/
def evalMarkerExpr (ctxExtra : Option String) : MarkerExpr → Bool
  | MarkerExpr.extraIs s => ctxExtra == some s
  | MarkerExpr.conj a b => evalMarkerExpr ctxExtra a && evalMarkerExpr ctxExtra b
  | MarkerExpr.disj a b => evalMarkerExpr ctxExtra a || evalMarkerExpr ctxExtra b

/-- Evaluate an optional marker; an absent marker imposes no restriction. -/
def evalMarker (m : Option MarkerExpr) (ctxExtra : Option String) : Bool :=
  match m with
  | none => true
  | some e => evalMarkerExpr ctxExtra e

/-- Modelled from the spec: a Requirement — package name, requested
extras and version constraint, immutable once parsed (§3). -/
structure Requirement where
  name : String
  extras : List String
  spec : List (SpecOp × Version)
deriving DecidableEq, Repr

/-- A plain named requirement with no extras and no constraint. -/
def reqNamed (n : String) : Requirement := { name := n, extras := [], spec := [] }

/-- One dependency of a package's metadata: a requirement optionally
gated by a marker referencing `extra` (§4.4 Dependency expansion). -/
structure Dep where
  req : Requirement
  marker : Option MarkerExpr
deriving DecidableEq, Repr

/-- Modelled from the spec: the metadata record the Metadata Extractor
returns for a fetched artifact — dependency requirements (markers
included) and the top-level import names (§6). -/
structure PkgMeta where
  deps : List Dep
  imports : List String
deriving DecidableEq, Repr

/-- A dependency applies when its marker holds in the base environment
(no extra) or under at least one requested extra (§4.4). -/
def depApplies (extras : List String) (d : Dep) : Bool :=
  evalMarker d.marker none || extras.any (fun e => evalMarker d.marker (some e))

/-- Drop requirements whose normalized name was already produced
(§4.4: dedupe by normalized name, not by literal string). -/
def dedupReqs (seen : List String) : List Requirement → List Requirement
  | [] => []
  | r :: rs =>
    if seen.contains (normName r.name) then dedupReqs seen rs
    else r :: dedupReqs (normName r.name :: seen) rs

/-- Modelled from the spec: dependency expansion — every dependency that
applies under the base environment or under a requested extra is
enqueued, deduplicated by normalized name (§4.4). -/
def expandDeps (meta : PkgMeta) (extras : List String) : List Requirement :=
  dedupReqs [] ((meta.deps.filter (depApplies extras)).map (fun d => d.req))

/-- The external collaborators of one transaction: the platform
descriptor, the registry (release-index query, §6) and the metadata the
Metadata Extractor yields per fetched artifact filename (§6). -/
structure Env where
  platform : PlatformDesc
  registry : List (String × ReleaseIndex)
  metaOf : List (String × PkgMeta)

/-! ## The Transaction (spec §4.4) -/

/-- A resolved artifact committed into the transaction, with the direct
dependency names and import names gathered from its metadata (§4.4, §4.5). -/
structure ResolvedWheel where
  name : String
  version : Version
  filename : String
  url : String
  depends : List String
  imports : List String
deriving DecidableEq, Repr

/-- Modelled from the spec: the Transaction state — resolved `wheels` in
resolution order, the `locked` map from normalized name to version, the
`failed` requirement names of keep-going mode, a log of fetched artifact
URLs, and the transaction-wide options (§3 Transaction state). -/
structure TransState where
  wheels : List ResolvedWheel
  locked : List (String × Version)
  failed : List String
  fetched : List String
  keepGoing : Bool
  depsFlag : Bool
  pre : Bool
deriving DecidableEq, Repr

/-- Is the requirement's normalized name already locked (§4.4)? -/
def isLocked (st : TransState) (name : String) : Bool :=
  (st.locked.lookup (normName name)).isSome

/-- Modelled from the spec: processing of one pending named requirement —
already-locked names are treated as satisfied and return unchanged with
nothing enqueued; otherwise the release index is queried (not-found
error), the Artifact Resolver runs, metadata is fetched (logged as a
fetch), the applicable dependencies are expanded for enqueueing (skipped
entirely when the deps option is false), and the artifact is committed
into `wheels` and `locked` (§4.4). -/
def step (env : Env) (st : TransState) (req : Requirement) :
    Except PipError (TransState × List Requirement) :=
  if isLocked st req.name then Except.ok (st, [])
  else
    match env.registry.lookup req.name with
    | none => Except.error (PipError.notFound req.name)
    | some idx =>
      match find_wheel env.platform idx req.name req.spec st.pre with
      | Except.error e => Except.error e
      | Except.ok w =>
        match env.metaOf.lookup w.filename with
        | none => Except.error (PipError.fetchFailed w.url)
        | some meta =>
          let depReqs := expandDeps meta req.extras
          let rw : ResolvedWheel :=
            { name := normName req.name, version := w.version, filename := w.filename,
              url := w.url, depends := depReqs.map (fun r => r.name),
              imports := meta.imports }
          Except.ok
            ({ st with
                wheels := st.wheels ++ [rw],
                locked := st.locked ++ [(normName req.name, w.version)],
                fetched := st.fetched ++ [w.url] },
              if st.depsFlag then depReqs else [])

/-- Modelled from the spec: draining the pending-requirement queue to a
fixed point — each popped requirement is processed, its dependencies are
enqueued, and a failure either aborts the whole transaction (keep-going
off) or is captured into `failed` while the queue continues draining
(keep-going on) (§4.4). The fuel argument is a termination bound only;
any fuel at least the number of pops suffices. -/
def drainQueue (env : Env) : Nat → TransState → List Requirement → Except PipError TransState
  | _, st, [] => Except.ok st
  | 0, _, _ :: _ => Except.error PipError.outOfFuel
  | fuel + 1, st, r :: rest =>
    match step env st r with
    | Except.ok (st', more) => drainQueue env fuel st' (more ++ rest)
    | Except.error e =>
      if st.keepGoing then
        drainQueue env fuel { st with failed := st.failed ++ [r.name] } rest
      else Except.error e

/-- The fresh state of a transaction with the given options (§3
Lifecycle: created per install call, no state across calls). -/
def initState (keepGoing depsFlag pre : Bool) : TransState :=
  { wheels := [], locked := [], failed := [], fetched := [],
    keepGoing := keepGoing, depsFlag := depsFlag, pre := pre }

/-- Modelled from the spec: a whole install call — seed the queue, drain
it, and if any requirement failed in keep-going mode raise one aggregated
error listing every failed requirement (§4.4 keep-going, §7). -/
def installPkgs (env : Env) (fuel : Nat) (keepGoing depsFlag pre : Bool)
    (reqs : List Requirement) : Except PipError TransState :=
  match drainQueue env fuel (initState keepGoing depsFlag pre) reqs with
  | Except.error e => Except.error e
  | Except.ok st =>
    if st.failed.isEmpty then Except.ok st else Except.error (PipError.aggregate st.failed)

/-! ## Freeze / lockfile export (spec §4.5) -/

/-- One package's lockfile record: version, direct dependency names and
top-level import names (§6 Lockfile record shape). -/
structure FreezeRecord where
  version : Version
  depends : List String
  imports : List String
deriving DecidableEq, Repr

/-- Modelled from the spec: `freeze` — a pure projection of the state
already held, mapping each installed package's normalized name to its
version, direct dependency names and import names; no new resolution
occurs (§4.5). -/
def freeze (st : TransState) : List (String × FreezeRecord) :=
  st.wheels.map
    (fun w => (w.name, { version := w.version, depends := w.depends, imports := w.imports }))

/-- The spec's Transaction invariant: no package name appears twice in
`wheels`, and every name accepted into `wheels` is in `locked` (§3). -/
def WheelsInv (st : TransState) : Prop :=
  (st.wheels.map ResolvedWheel.name).Nodup ∧
  ∀ w ∈ st.wheels, (List.lookup w.name st.locked).isSome = true

instance (st : TransState) : Decidable (WheelsInv st) := by
  unfold WheelsInv
  infer_instance

/-- Wheel-level compatibility check of the artifact a URL denotes:
`none` when the URL does not parse, otherwise the check's verdict. -/
def checkOfUrl (p : PlatformDesc) (s : String) : Option (Option PipError) :=
  match from_urlChars s.toList with
  | Except.ok w => some (check_compatible p w)
  | Except.error _ => none

/-! ## Concrete scenario data, taken from the repository's test suite -/

/-- A registry artifact descriptor whose URL is its filename, as in the
test fixtures. -/
def fileOf (s : String) : FileInfo := ⟨s, s⟩

def v001 : Version := ⟨0, [0, 0, 1], none, none, none⟩

def v0155 : Version := ⟨0, [0, 15, 5], none, none, none⟩

def v091 : Version := ⟨0, [0, 9, 1], none, none, none⟩

def v100 : Version := ⟨0, [1, 0, 0], none, none, none⟩

def v111 : Version := ⟨0, [1, 1, 1], none, none, none⟩

def v120 : Version := ⟨0, [1, 2, 0], none, none, none⟩

def v201a1 : Version := ⟨0, [2, 0, 1], some (0, 1), none, none⟩

/-- The release index of `test_last_version_from_pypi`: versions 0.0.1,
0.15.5, 0.9.1, each with one pure `py3-none-any` wheel. -/
def idxC2 : ReleaseIndex :=
  [("0.0.1", [fileOf "dummy_module-0.0.1-py3-none-any.whl"]),
   ("0.15.5", [fileOf "dummy_module-0.15.5-py3-none-any.whl"]),
   ("0.9.1", [fileOf "dummy_module-0.9.1-py3-none-any.whl"])]

/-- The artifacts of the old version 1.1.1 of
`test_last_version_and_best_tag_from_pypi` (`py2.py3`, the more specific
tag match). -/
def filesC1old : List FileInfo := [fileOf "compose-1.1.1-py2.py3-none-any.whl"]

/-- The artifacts of the new version 1.2.0 of
`test_last_version_and_best_tag_from_pypi` (`py2.py30`, `py35`, `py38`,
merely compatible). -/
def filesC1new : List FileInfo :=
  [fileOf "compose-1.2.0-py2.py30-none-any.whl",
   fileOf "compose-1.2.0-py35-none-any.whl",
   fileOf "compose-1.2.0-py38-none-any.whl"]

/-- The release index of `test_last_version_and_best_tag_from_pypi`. -/
def idxC1 : ReleaseIndex := [("1.1.1", filesC1old), ("1.2.0", filesC1new)]

/-- The release index of `test_install_pre`: stable 1.0.0 and pre-release
2.0.1a1. -/
def idxC6 : ReleaseIndex :=
  [("1.0.0", [fileOf "dummy-1.0.0-py3-none-any.whl"]),
   ("2.0.1a1", [fileOf "dummy-2.0.1a1-py3-none-any.whl"])]

/-- The environment of `test_install_keep_going`: `dummy` depends on
`dep1` and `dep2`, whose only wheels have an incompatible platform. -/
def envC3 : Env :=
  { platform := pyPlatform,
    registry :=
      [("dummy", [("1.0.0", [fileOf "dummy-1.0.0-py3-none-any.whl"])]),
       ("dep1", [("1.0.0", [fileOf "dep1-1.0.0-cp310-cp310-invalid.whl"])]),
       ("dep2", [("1.0.0", [fileOf "dep2-1.0.0-cp310-cp310-invalid.whl"])])],
    metaOf :=
      [("dummy-1.0.0-py3-none-any.whl",
        { deps := [⟨reqNamed "dep1", none⟩, ⟨reqNamed "dep2", none⟩], imports := [] })] }

/-- The final drained state of the `envC3` keep-going run. -/
def stC3 : TransState :=
  { wheels :=
      [{ name := "dummy", version := v100, filename := "dummy-1.0.0-py3-none-any.whl",
         url := "dummy-1.0.0-py3-none-any.whl", depends := ["dep1", "dep2"], imports := [] }],
    locked := [("dummy", v100)], failed := ["dep1", "dep2"],
    fetched := ["dummy-1.0.0-py3-none-any.whl"],
    keepGoing := true, depsFlag := true, pre := false }

/-- The environment of `test_package_with_extra`: the extra `full` of
`pkga` gates `depb` and `depc`; bare `pkga` depends on neither. -/
def envC5 : Env :=
  { platform := pyPlatform,
    registry :=
      [("pkga", [("1.0.0", [fileOf "pkga-1.0.0-py3-none-any.whl"])]),
       ("depb", [("1.0.0", [fileOf "depb-1.0.0-py3-none-any.whl"])]),
       ("depc", [("1.0.0", [fileOf "depc-1.0.0-py3-none-any.whl"])])],
    metaOf :=
      [("pkga-1.0.0-py3-none-any.whl",
        { deps :=
            [⟨reqNamed "depb", some (MarkerExpr.extraIs "full")⟩,
             ⟨reqNamed "depc", some (MarkerExpr.extraIs "full")⟩],
          imports := [] }),
       ("depb-1.0.0-py3-none-any.whl", { deps := [], imports := [] }),
       ("depc-1.0.0-py3-none-any.whl", { deps := [], imports := [] })] }

/-- The metadata of `pkga` in `envC5`. -/
def metaPkga : PkgMeta :=
  { deps :=
      [⟨reqNamed "depb", some (MarkerExpr.extraIs "full")⟩,
       ⟨reqNamed "depc", some (MarkerExpr.extraIs "full")⟩],
    imports := [] }

/-- `pkga` requested with the extra `full`. -/
def reqPkgaFull : Requirement := { name := "pkga", extras := ["full"], spec := [] }

/-- A state in which `pkga` is already locked, with one committed wheel. -/
def stLockedPkga : TransState :=
  { wheels :=
      [{ name := "pkga", version := v100, filename := "pkga-1.0.0-py3-none-any.whl",
         url := "pkga-1.0.0-py3-none-any.whl", depends := [], imports := [] }],
    locked := [("pkga", v100)], failed := [], fetched := ["pkga-1.0.0-py3-none-any.whl"],
    keepGoing := false, depsFlag := true, pre := false }

/-- The final drained state of the bare `pkga` run over `envC5`. -/
def stC5bare : TransState :=
  { wheels :=
      [{ name := "pkga", version := v100, filename := "pkga-1.0.0-py3-none-any.whl",
         url := "pkga-1.0.0-py3-none-any.whl", depends := [], imports := [] }],
    locked := [("pkga", v100)], failed := [], fetched := ["pkga-1.0.0-py3-none-any.whl"],
    keepGoing := false, depsFlag := true, pre := false }

/-- The environment of `test_freeze`: `dummy` depends on `dep1` and
`dep2`, each package reporting its own top-level import names. -/
def envC9 : Env :=
  { platform := pyPlatform,
    registry :=
      [("dummy", [("1.0.0", [fileOf "dummy-1.0.0-py3-none-any.whl"])]),
       ("dep1", [("1.0.0", [fileOf "dep1-1.0.0-py3-none-any.whl"])]),
       ("dep2", [("1.0.0", [fileOf "dep2-1.0.0-py3-none-any.whl"])])],
    metaOf :=
      [("dummy-1.0.0-py3-none-any.whl",
        { deps := [⟨reqNamed "dep1", none⟩, ⟨reqNamed "dep2", none⟩],
          imports := ["abc", "def", "geh"] }),
       ("dep1-1.0.0-py3-none-any.whl", { deps := [], imports := ["c", "h", "i"] }),
       ("dep2-1.0.0-py3-none-any.whl", { deps := [], imports := ["a12", "b13"] })] }

/-- The wheel filename of the snowballstemmer test artifact. -/
def snowChars : List Char := "snowballstemmer-2.0.0-py2.py3-none-any.whl".toList

/-- The URL-independent core of the parsed snowballstemmer artifact. -/
def snowCore : String × Version × String × List Tag :=
  ("snowballstemmer", ⟨0, [2, 0, 0], none, none, none⟩,
   "snowballstemmer-2.0.0-py2.py3-none-any.whl",
   [⟨"py2", "none", "any"⟩, ⟨"py3", "none", "any"⟩])

/-- The protocol and leading-path variants of `test_parse_wheel_url1`. -/
def urlVariants : List String :=
  (["https:", "file:", "emfs:", ""].map
    (fun proto =>
      ["snowballstemmer-2.0.0-py2.py3-none-any.whl",
       "/snowballstemmer-2.0.0-py2.py3-none-any.whla/snowballstemmer-2.0.0-py2.py3-none-any.whl",
       "/a/snowballstemmer-2.0.0-py2.py3-none-any.whl",
       "//a/snowballstemmer-2.0.0-py2.py3-none-any.whl"].map
        (fun path => proto ++ path))).flatten

/-- The four distinct compatibility errors of `test_check_compatible`. -/
def compatErrs : List PipError :=
  [PipError.incompatibleRuntimeBuild "2.0.27" "3.1.14",
   PipError.incompatiblePlatform "macosx_10_9_intel" "emscripten_3_1_14_wasm32",
   PipError.incompatibleAbi "cp35m",
   PipError.incompatibleInterpreter "cp35"]

/-! ## Order-theoretic facts about the version comparison -/

theorem cmpNat_swap (a b : Nat) : (cmpNat a b).swap = cmpNat b a := by
  unfold cmpNat
  rcases Nat.lt_trichotomy a b with h | h | h
  · simp [h, Nat.lt_asymm h, Ordering.swap]
  · subst h; simp [Nat.lt_irrefl, Ordering.swap]
  · simp [h, Nat.lt_asymm h, Ordering.swap]

theorem ordering_then_swap (a b : Ordering) : (a.then b).swap = a.swap.then b.swap := by
  cases a <;> cases b <;> rfl

theorem ordering_swap_swap (a : Ordering) : a.swap.swap = a := by
  cases a <;> rfl

theorem padCompare_swap : ∀ a b : List Nat, (padCompare a b).swap = padCompare b a := by
  intro a
  induction a with
  | nil =>
    intro b
    cases b with
    | nil => rfl
    | cons x xs => rfl
  | cons y ys ih =>
    intro b
    cases b with
    | nil => exact ordering_swap_swap (cmpZeros (y :: ys))
    | cons x xs =>
      show ((cmpNat y x).then (padCompare ys xs)).swap = (cmpNat x y).then (padCompare xs ys)
      rw [ordering_then_swap, cmpNat_swap, ih xs]

theorem keyCmp3_swap (x y : Nat × Nat × Nat) : (keyCmp3 x y).swap = keyCmp3 y x := by
  unfold keyCmp3
  rw [ordering_then_swap, ordering_then_swap, cmpNat_swap, cmpNat_swap, cmpNat_swap]

theorem keyCmp2_swap (x y : Nat × Nat) : (keyCmp2 x y).swap = keyCmp2 y x := by
  unfold keyCmp2
  rw [ordering_then_swap, cmpNat_swap, cmpNat_swap]

theorem versionCmp_swap (a b : Version) : (versionCmp a b).swap = versionCmp b a := by
  unfold versionCmp
  rw [ordering_then_swap, ordering_then_swap, ordering_then_swap, ordering_then_swap,
    cmpNat_swap, padCompare_swap, keyCmp3_swap, keyCmp2_swap, keyCmp2_swap]

theorem versionCmp_refl (a : Version) : versionCmp a a = Ordering.eq := by
  have h := versionCmp_swap a a
  cases hc : versionCmp a a
  · rw [hc] at h; exact absurd h (by decide)
  · rfl
  · rw [hc] at h; exact absurd h (by decide)

theorem vlt_irrefl (a : Version) : vlt a a = false := by
  unfold vlt
  rw [versionCmp_refl]
  rfl

theorem versionCmp_eq_lt_of_vlt {a b : Version} (h : vlt a b = true) :
    versionCmp a b = Ordering.lt := by
  unfold vlt at h
  cases hc : versionCmp a b
  · rfl
  · rw [hc] at h; exact absurd h (by decide)
  · rw [hc] at h; exact absurd h (by decide)

theorem vlt_asymm {a b : Version} (h : vlt a b = true) : vlt b a = false := by
  have h' := versionCmp_eq_lt_of_vlt h
  have hs := versionCmp_swap a b
  rw [h'] at hs
  unfold vlt
  rw [← hs]
  rfl

/-! ## Facts about the descending insertion sort -/

theorem mem_insertDesc {α : Type} (lt : α → α → Bool) (x : α) (l : List α) (y : α) :
    y ∈ insertDesc lt x l ↔ y = x ∨ y ∈ l := by
  induction l with
  | nil => simp [insertDesc]
  | cons a as ih =>
    show y ∈ (if lt a x = true then x :: a :: as else a :: insertDesc lt x as) ↔ _
    by_cases h : lt a x = true
    · rw [if_pos h]
      simp only [List.mem_cons]
    · rw [if_neg h]
      simp only [List.mem_cons, ih]
      tauto

theorem mem_sortDesc {α : Type} (lt : α → α → Bool) (l : List α) (y : α) :
    y ∈ sortDesc lt l ↔ y ∈ l := by
  induction l with
  | nil => simp [sortDesc]
  | cons a as ih => simp [sortDesc, mem_insertDesc, ih]

theorem insertDesc_all_lt {α : Type} (lt : α → α → Bool) (x : α) (l : List α)
    (h : ∀ y ∈ l, lt y x = true) : insertDesc lt x l = x :: l := by
  cases l with
  | nil => rfl
  | cons a as => simp [insertDesc, h a (by simp)]

/-- When some element satisfies `P`, every non-`P` element sorts strictly
below every `P` element and `P` elements never sort below one another,
the head of the descending sort satisfies `P`. -/
theorem sortDesc_head_P {α : Type} (lt : α → α → Bool) (P : α → Bool) (l : List α)
    (h1 : ∀ y ∈ l, P y = false → ∀ x ∈ l, P x = true → lt y x = true)
    (h2 : ∀ x ∈ l, ∀ y ∈ l, P x = true → P y = true → lt y x = false)
    (h3 : ∀ x ∈ l, ∀ y ∈ l, P x = true → P y = false → lt x y = false)
    (hex : ∃ a ∈ l, P a = true) :
    ∃ b tl, sortDesc lt l = b :: tl ∧ P b = true := by
  induction l with
  | nil => simp at hex
  | cons a as ih =>
    by_cases hPas : ∃ b ∈ as, P b = true
    · obtain ⟨b, tl, hsort, hPb⟩ :=
        ih (fun y hy hPy x hx hPx =>
              h1 y (List.mem_cons_of_mem a hy) hPy x (List.mem_cons_of_mem a hx) hPx)
          (fun x hx y hy hPx hPy =>
              h2 x (List.mem_cons_of_mem a hx) y (List.mem_cons_of_mem a hy) hPx hPy)
          (fun x hx y hy hPx hPy =>
              h3 x (List.mem_cons_of_mem a hx) y (List.mem_cons_of_mem a hy) hPx hPy)
          hPas
      have hbmem : b ∈ as := by
        have := (mem_sortDesc lt as b).mp (by rw [hsort]; simp)
        exact this
      have hba : lt b a = false := by
        by_cases hPa : P a = true
        · exact h2 a (by simp) b (List.mem_cons_of_mem a hbmem) hPa hPb
        · have hPaf : P a = false := by
            cases hq : P a
            · rfl
            · exact absurd hq hPa
          exact h3 b (List.mem_cons_of_mem a hbmem) a (by simp) hPb hPaf
      have hins : insertDesc lt a (b :: tl) = b :: insertDesc lt a tl := by
        show (if lt b a = true then a :: b :: tl else b :: insertDesc lt a tl) =
          b :: insertDesc lt a tl
        rw [if_neg (by simp [hba])]
      show ∃ c tl', insertDesc lt a (sortDesc lt as) = c :: tl' ∧ P c = true
      rw [hsort, hins]
      exact ⟨b, insertDesc lt a tl, rfl, hPb⟩
    · have hPa : P a = true := by
        rcases hex with ⟨c, hc, hPc⟩
        rcases List.mem_cons.mp hc with rfl | hc'
        · exact hPc
        · exact absurd ⟨c, hc', hPc⟩ hPas
      have hall : ∀ y ∈ sortDesc lt as, lt y a = true := by
        intro y hy
        have hy' : y ∈ as := (mem_sortDesc lt as y).mp hy
        have hPy : P y = false := by
          cases hq : P y
          · rfl
          · exact absurd ⟨y, hy', hq⟩ hPas
        exact h1 y (List.mem_cons_of_mem a hy') hPy a (by simp) hPa
      show ∃ c tl', insertDesc lt a (sortDesc lt as) = c :: tl' ∧ P c = true
      rw [insertDesc_all_lt lt a (sortDesc lt as) hall]
      exact ⟨a, sortDesc lt as, rfl, hPa⟩

/-! ## Facts about query splitting in URLs -/

theorem takeUntil_append {c : Char} {l : List Char} (h : c ∉ l) (r : List Char) :
    takeUntil c (l ++ r) = l ++ takeUntil c r := by
  induction l with
  | nil => simp
  | cons x xs ih =>
    have hx : ¬x = c := fun he => h (by simp [he])
    show (if x = c then [] else x :: takeUntil c (xs ++ r)) = x :: (xs ++ takeUntil c r)
    rw [if_neg hx, ih (fun hm => h (List.mem_cons_of_mem x hm))]

/-! ## Facts about association-list lookup over append -/

theorem lookup_append {β : Type} (l1 l2 : List (String × β)) (k : String) :
    List.lookup k (l1 ++ l2) =
      match List.lookup k l1 with
      | some v => some v
      | none => List.lookup k l2 := by
  induction l1 with
  | nil => simp [List.lookup]
  | cons p ps ih =>
    obtain ⟨a, b⟩ := p
    simp only [List.cons_append, List.lookup]
    cases h : (k == a) <;> simp [ih]

/-! ## The wheels/locked invariant of the Transaction (spec §3 Invariant) -/

theorem step_preserves_inv {env : Env} {st : TransState} {req : Requirement}
    {st' : TransState} {more : List Requirement} (hinv : WheelsInv st)
    (h : step env st req = Except.ok (st', more)) : WheelsInv st' := by
  unfold step at h
  split at h
  · simp only [Except.ok.injEq, Prod.mk.injEq] at h
    rw [← h.1]
    exact hinv
  · rename_i hl
    have hlock : List.lookup (normName req.name) st.locked = none := by
      cases hq : List.lookup (normName req.name) st.locked
      · rfl
      · exact absurd (by simp [isLocked, hq]) hl
    split at h
    · simp at h
    · rename_i idx hreg
      split at h
      · simp at h
      · rename_i w hfw
        split at h
        · simp at h
        · rename_i meta hmeta
          simp only [Except.ok.injEq, Prod.mk.injEq] at h
          obtain ⟨hst, -⟩ := h
          have hnotin : normName req.name ∉ st.wheels.map ResolvedWheel.name := by
            intro hmem
            obtain ⟨w0, hw0, hw0n⟩ := List.mem_map.mp hmem
            have hsome := hinv.2 w0 hw0
            rw [hw0n, hlock] at hsome
            simp at hsome
          constructor
          · rw [← hst]
            simp only [List.map_append, List.map_cons, List.map_nil]
            rw [List.nodup_append]
            refine ⟨hinv.1, List.nodup_singleton _, ?_⟩
            intro x hx hx'
            simp only [List.mem_singleton] at hx'
            rw [hx'] at hx
            exact hnotin hx
          · intro w0 hw0
            rw [← hst] at hw0
            simp only [List.mem_append, List.mem_singleton] at hw0
            rcases hw0 with hw0 | rfl
            · have hold := hinv.2 w0 hw0
              rw [← hst]
              show (List.lookup w0.name (st.locked ++ [(normName req.name, w.version)])).isSome = true
              rw [lookup_append]
              cases hq : List.lookup w0.name st.locked
              · rw [hq] at hold; simp at hold
              · simp
            · rw [← hst]
              show (List.lookup (normName req.name)
                  (st.locked ++ [(normName req.name, w.version)])).isSome = true
              rw [lookup_append, hlock]
              simp [List.lookup]

theorem drain_preserves_inv (env : Env) :
    ∀ fuel (st : TransState) (queue : List Requirement) (st' : TransState),
      WheelsInv st → drainQueue env fuel st queue = Except.ok st' → WheelsInv st' := by
  intro fuel
  induction fuel with
  | zero =>
    intro st queue st' hinv h
    cases queue with
    | nil => simp [drainQueue] at h; rw [← h]; exact hinv
    | cons r rs => simp [drainQueue] at h
  | succ n ih =>
    intro st queue st' hinv h
    cases queue with
    | nil => simp [drainQueue] at h; rw [← h]; exact hinv
    | cons r rs =>
      rw [show drainQueue env (n + 1) st (r :: rs) =
            match step env st r with
            | Except.ok (st1, more) => drainQueue env n st1 (more ++ rs)
            | Except.error e =>
              if st.keepGoing then
                drainQueue env n { st with failed := st.failed ++ [r.name] } rs
              else Except.error e from rfl] at h
      split at h
      · rename_i st1 more hs
        exact ih st1 (more ++ rs) st' (step_preserves_inv hinv hs) h
      · rename_i e hs
        split at h
        · exact ih { st with failed := st.failed ++ [r.name] } rs st' hinv h
        · simp at h

/-! ## Facts about dependency expansion (spec §4.4) -/

theorem mem_dedupReqs {r : Requirement} :
    ∀ {seen : List String} {l : List Requirement}, r ∈ dedupReqs seen l → r ∈ l := by
  intro seen l
  induction l generalizing seen with
  | nil => simp [dedupReqs]
  | cons a as ih =>
    simp only [dedupReqs]
    by_cases h : seen.contains (normName a.name)
    · rw [if_pos h]
      intro hr
      exact List.mem_cons_of_mem a (ih hr)
    · rw [if_neg h]
      intro hr
      rcases List.mem_cons.mp hr with rfl | hr'
      · simp
      · exact List.mem_cons_of_mem a (ih hr')

theorem expandDeps_mem {meta : PkgMeta} {extras : List String} {r : Requirement}
    (h : r ∈ expandDeps meta extras) :
    ∃ d ∈ meta.deps, d.req = r ∧ depApplies extras d = true := by
  unfold expandDeps at h
  have h1 := mem_dedupReqs h
  simp only [List.mem_map, List.mem_filter] at h1
  obtain ⟨d, ⟨hd, happ⟩, hr⟩ := h1
  exact ⟨d, hd, hr, happ⟩

/-! ## Claim theorems -/

/-- Claim C2: with no version constraint and allow-pre unset, resolving a
release index whose versions are exactly 0.0.1, 0.15.5 and 0.9.1, all
stable and each with a compatible wheel, returns the artifact of version
0.15.5 — the maximum under version ordering, although 0.15.5 is neither
maximal in plain string order (0.9.1 is string-larger) nor last in
insertion order. -/
theorem claim_C2 :
    Except.map WheelInfo.version (find_wheel pyPlatform idxC2 "dummy_module" [] false) =
      Except.ok v0155 ∧
    vlt v001 v0155 = true ∧ vlt v091 v0155 = true ∧
    charListLt "0.15.5".toList "0.9.1".toList = true ∧
    List.map Prod.fst idxC2 = ["0.0.1", "0.15.5", "0.9.1"] := by
  refine ⟨by decide, by decide, by decide, by decide, by decide⟩

/-- Claim C6: with allow-pre unset, a version carrying a pre-release/dev
segment is not eligible for selection, so the stable 1.0.0 is chosen over
the newer pre-release 2.0.1a1; with allow-pre set all versions are
eligible and the newest pre-release 2.0.1a1 is chosen.  The flag is a
field of the Transaction state, passed per-transaction to every
resolution. -/
theorem claim_C6 :
    (∀ v : Version, versionEligible false [] v = !isPre v) ∧
    (∀ v : Version, versionEligible true [] v = true) ∧
    Except.map WheelInfo.version (find_wheel pyPlatform idxC6 "dummy" [] false) =
      Except.ok v100 ∧
    Except.map WheelInfo.version (find_wheel pyPlatform idxC6 "dummy" [] true) =
      Except.ok v201a1 := by
  refine ⟨?_, ?_, by decide, by decide⟩
  · intro v
    simp [versionEligible, satisfies]
  · intro v
    simp [versionEligible, satisfies]

theorem parseParts_short (fn : List Char) (parts : List (List Char))
    (h : parts.length < 5) :
    parseParts fn parts = Except.error (PipError.malformedArtifactName (List.asString fn)) := by
  rcases parts with _ | ⟨a, _ | ⟨b, _ | ⟨c, _ | ⟨d, _ | ⟨e, rest⟩⟩⟩⟩⟩
  · rfl
  · rfl
  · rfl
  · rfl
  · rfl
  · exfalso
    simp only [List.length_cons] at h
    omega

/-- Claim C7: a wheel filename whose stem has fewer than 5
hyphen-delimited segments fails with the malformed-artifact-name error
naming the invalid filename — it never yields an artifact reference;
concretely, `snowballstemmer-2.0.0-py2.whl` fails so. -/
theorem claim_C7 :
    (∀ fn : List Char, endsWithChars ".whl".toList fn = true →
        (splitOnChar '-' (fn.take (fn.length - 4))).length < 5 →
        parseFilenameChars fn =
          Except.error (PipError.malformedArtifactName (List.asString fn))) ∧
    from_url "https://a/snowballstemmer-2.0.0-py2.whl" =
      Except.error (PipError.malformedArtifactName "snowballstemmer-2.0.0-py2.whl") := by
  refine ⟨?_, by decide⟩
  intro fn h1 h2
  unfold parseFilenameChars
  rw [if_pos h1]
  exact parseParts_short fn _ h2

/-- Witness for C7: the filename of `test_parse_wheel_url2`, whose stem
splits into 3 segments. -/
theorem claim_C7_witness :
    parseFilenameChars "snowballstemmer-2.0.0-py2.whl".toList =
      Except.error (PipError.malformedArtifactName "snowballstemmer-2.0.0-py2.whl") :=
  claim_C7.1 "snowballstemmer-2.0.0-py2.whl".toList (by decide) (by decide)

/-- Claim C8: a wheel whose platform tag embeds a runtime-build identifier
different from the runtime's build fails with the distinct
incompatible-runtime-build error naming both builds, not the generic
incompatible-platform error, even though the coarse platform family
matches; generic platform, ABI and interpreter mismatches each raise
their own distinct error. -/
theorem claim_C8 :
    checkOfUrl pyPlatform "scikit_learn-0.22.2.post1-cp35-cp35m-emscripten_2_0_27_wasm32.whl" =
      some (some (PipError.incompatibleRuntimeBuild "2.0.27" "3.1.14")) ∧
    emscriptenFamily "emscripten_2_0_27_wasm32".toList = true ∧
    emscriptenFamily pyPlatform.plat.toList = true ∧
    checkOfUrl pyPlatform "scikit_learn-0.22.2.post1-cp35-cp35m-macosx_10_9_intel.whl" =
      some (some (PipError.incompatiblePlatform "macosx_10_9_intel" "emscripten_3_1_14_wasm32")) ∧
    checkOfUrl pyPlatform "scikit_learn-0.22.2.post1-cp35-cp35m-emscripten_3_1_14_wasm32.whl" =
      some (some (PipError.incompatibleAbi "cp35m")) ∧
    checkOfUrl pyPlatform "scikit_learn-0.22.2.post1-cp35-cp310-emscripten_3_1_14_wasm32.whl" =
      some (some (PipError.incompatibleInterpreter "cp35")) ∧
    compatErrs.Nodup := by
  refine ⟨by decide, by decide, by decide, by decide, by decide, by decide, by decide⟩

/-- Claim C10: for every query string appended to the snowballstemmer
wheel URL, the artifact reference is parsed from the path alone — name,
version, tags and the stored filename (which excludes the query
parameters) are those of the bare filename; and the same parse results
from every protocol prefix (`https:`, `file:`, `emfs:`, none) and
leading-path variant of the test suite. -/
theorem claim_C10 :
    (∀ q : List Char,
        Except.map wheelCore (from_urlChars (snowChars ++ '?' :: q)) = Except.ok snowCore) ∧
    (∀ u ∈ urlVariants, Except.map wheelCore (from_urlChars u.toList) = Except.ok snowCore) := by
  constructor
  · intro q
    have hfn : urlFilename (snowChars ++ '?' :: q) = urlFilename snowChars := by
      unfold urlFilename
      rw [show snowChars ++ '?' :: q = (snowChars ++ ['?']) ++ q from by simp,
        takeUntil_append (show ('#' : Char) ∉ snowChars ++ ['?'] from by decide) q,
        show (snowChars ++ ['?']) ++ takeUntil '#' q =
          snowChars ++ ('?' :: takeUntil '#' q) from by simp,
        takeUntil_append (show ('?' : Char) ∉ snowChars from by decide)
          ('?' :: takeUntil '#' q)]
      rfl
    unfold from_urlChars
    rw [hfn]
    rfl
  · decide

/-- Witness for C10: the concrete query URL of
`test_add_requirement_query_url` and the `file:` protocol variant. -/
theorem claim_C10_witness :
    Except.map wheelCore (from_urlChars (snowChars ++ '?' :: "b=1".toList)) =
      Except.ok snowCore ∧
    Except.map wheelCore
        (from_urlChars ("file:snowballstemmer-2.0.0-py2.py3-none-any.whl").toList) =
      Except.ok snowCore :=
  ⟨claim_C10.1 "b=1".toList,
   claim_C10.2 "file:snowballstemmer-2.0.0-py2.py3-none-any.whl" (by decide)⟩

/-- Claim C1: for every release index containing an older eligible version
whose artifacts are a strictly more specific compatibility-tag match and a
strictly newer eligible version that has at least one compatible artifact,
`find_wheel` returns an artifact of the newer version: selection is by
first (newest) version with any compatible artifact, never by globally
best tag score across versions. -/
theorem claim_C1 (plat : PlatformDesc) (idx : ReleaseIndex) (name : String)
    (spec : List (SpecOp × Version)) (pre : Bool) (vOld vNew : Version)
    (filesOld filesNew : List FileInfo)
    (_hold : (vOld, filesOld) ∈ eligiblePairs idx spec pre)
    (hnew : (vNew, filesNew) ∈ eligiblePairs idx spec pre)
    (_holdlt : vlt vOld vNew = true)
    (_hspecific :
      (bestIndexOfFiles plat filesNew).getD 0 < (bestIndexOfFiles plat filesOld).getD 0)
    (hmax : ∀ p ∈ eligiblePairs idx spec pre, p.1 ≠ vNew → vlt p.1 vNew = true)
    (hcompat : ∀ p ∈ eligiblePairs idx spec pre, p.1 = vNew →
        Option.map WheelInfo.version (bestOfVersion plat p.2) = some vNew) :
    ∃ w, find_wheel plat idx name spec pre = Except.ok w ∧ w.version = vNew := by
  have hhead := sortDesc_head_P pairVlt (fun p => p.1 == vNew) (eligiblePairs idx spec pre)
    ?h1 ?h2 ?h3 ⟨(vNew, filesNew), hnew, by simp⟩
  case h1 =>
    intro y hy hPy x hx hPx
    have hxv : x.1 = vNew := by simpa using hPx
    have hyv : y.1 ≠ vNew := by simpa using hPy
    unfold pairVlt
    rw [hxv]
    exact hmax y hy hyv
  case h2 =>
    intro x hx y hy hPx hPy
    have hxv : x.1 = vNew := by simpa using hPx
    have hyv : y.1 = vNew := by simpa using hPy
    unfold pairVlt
    rw [hxv, hyv]
    exact vlt_irrefl vNew
  case h3 =>
    intro x hx y hy hPx hPy
    have hxv : x.1 = vNew := by simpa using hPx
    have hyv : y.1 ≠ vNew := by simpa using hPy
    unfold pairVlt
    rw [hxv]
    exact vlt_asymm (hmax y hy hyv)
  obtain ⟨b, tl, hsort, hPb⟩ := hhead
  have hbmem : b ∈ eligiblePairs idx spec pre := by
    have hb : b ∈ sortDesc pairVlt (eligiblePairs idx spec pre) := by
      rw [hsort]; simp
    exact (mem_sortDesc pairVlt _ b).mp hb
  have hbv : b.1 = vNew := by simpa using hPb
  have hbest := hcompat b hbmem hbv
  rw [Option.map_eq_some'] at hbest
  obtain ⟨w, hw, hwv⟩ := hbest
  refine ⟨w, ?_, hwv⟩
  unfold find_wheel
  rw [hsort]
  have hfc : firstCompatible plat (b :: tl) = some w := by
    unfold firstCompatible
    rw [hw]
  rw [hfc]

/-- Witness for C1: the compose scenario of
`test_last_version_and_best_tag_from_pypi` — the old 1.1.1 `py2.py3`
wheel is the more specific match, yet 1.2.0 is selected. -/
theorem claim_C1_witness :
    ∃ w, find_wheel pyPlatform idxC1 "compose" [] false = Except.ok w ∧
      w.version = v120 :=
  claim_C1 pyPlatform idxC1 "compose" [] false v111 v120 filesC1old filesC1new
    (by decide) (by decide) (by decide) (by decide) (by decide) (by decide)

/-- Claim C3: when keep-going is set and two independent requirements each
fail to resolve, the Transaction drains the whole queue and then raises
exactly one aggregated error whose message lists every failed requirement
name — not an error on the first failure, not one error per failure — and
the sibling resolution already committed into `wheels`/`locked` is
unaffected.  In general, a drained state with failures yields the single
aggregate error of exactly those failures. -/
theorem claim_C3 :
    (∀ env fuel kg dp pr (reqs : List Requirement) (st' : TransState),
        drainQueue env fuel (initState kg dp pr) reqs = Except.ok st' →
        st'.failed ≠ [] →
        installPkgs env fuel kg dp pr reqs = Except.error (PipError.aggregate st'.failed)) ∧
    drainQueue envC3 10 (initState true true false) [reqNamed "dummy"] = Except.ok stC3 ∧
    stC3.failed = ["dep1", "dep2"] ∧
    List.map ResolvedWheel.name stC3.wheels = ["dummy"] ∧
    (List.lookup "dummy" stC3.locked).isSome = true ∧
    installPkgs envC3 10 true true false [reqNamed "dummy"] =
      Except.error (PipError.aggregate ["dep1", "dep2"]) ∧
    "dep1" ∈ stC3.failed ∧ "dep2" ∈ stC3.failed := by
  refine ⟨?_, by decide, by decide, by decide, by decide, by decide, by decide, by decide⟩
  intro env fuel kg dp pr reqs st' hdrain hfail
  have hne : st'.failed.isEmpty = false := by
    cases hq : st'.failed
    · exact absurd hq hfail
    · rfl
  unfold installPkgs
  rw [hdrain]
  simp [hne]

/-- Witness for C3: the keep-going scenario of `test_install_keep_going`
yields the one aggregate error of its drained failed list. -/
theorem claim_C3_witness :
    installPkgs envC3 10 true true false [reqNamed "dummy"] =
      Except.error (PipError.aggregate stC3.failed) :=
  claim_C3.1 envC3 10 true true false [reqNamed "dummy"] stC3 (by decide) (by decide)

/-- Claim C4: adding a requirement whose normalized name is already in the
Transaction's locked map is treated as satisfied — the step returns the
state unchanged (no fetch logged, no wheel appended, the locked version in
place) and enqueues nothing, so the queue simply moves on; and every run
preserves the invariant that no package name appears twice in `wheels`. -/
theorem claim_C4 :
    (∀ env st (req : Requirement), isLocked st req.name = true →
        step env st req = Except.ok (st, ([] : List Requirement))) ∧
    (∀ env fuel st (req : Requirement) (rest : List Requirement),
        isLocked st req.name = true →
        drainQueue env (fuel + 1) st (req :: rest) = drainQueue env fuel st rest) ∧
    (∀ env fuel st (queue : List Requirement) (st' : TransState),
        WheelsInv st → drainQueue env fuel st queue = Except.ok st' → WheelsInv st') := by
  refine ⟨?_, ?_, ?_⟩
  · intro env st req h
    unfold step
    rw [if_pos h]
  · intro env fuel st req rest h
    have hstep : step env st req = Except.ok (st, ([] : List Requirement)) := by
      unfold step
      rw [if_pos h]
    rw [show drainQueue env (fuel + 1) st (req :: rest) =
          match step env st req with
          | Except.ok (st1, more) => drainQueue env fuel st1 (more ++ rest)
          | Except.error e =>
            if st.keepGoing then
              drainQueue env fuel { st with failed := st.failed ++ [req.name] } rest
            else Except.error e from rfl, hstep]
    simp
  · intro env fuel st queue st' hinv h
    exact drain_preserves_inv env fuel st queue st' hinv h

/-- Witness for C4: re-adding the already-locked `pkga` is a no-op step,
the queue moves on, and the finished bare `pkga` run keeps the
no-duplicate invariant. -/
theorem claim_C4_witness :
    step envC5 stLockedPkga (reqNamed "pkga") =
      Except.ok (stLockedPkga, ([] : List Requirement)) ∧
    drainQueue envC5 3 stLockedPkga [reqNamed "pkga"] = drainQueue envC5 2 stLockedPkga [] ∧
    WheelsInv stC5bare :=
  ⟨claim_C4.1 envC5 stLockedPkga (reqNamed "pkga") (by decide),
   claim_C4.2.1 envC5 2 stLockedPkga (reqNamed "pkga") [] (by decide),
   claim_C4.2.2 envC5 10 (initState false true false) [reqNamed "pkga"] stC5bare
     (by decide) (by decide)⟩

/-- Claim C5: installing `pkga` with the extra `full` — which gates `depb`
and `depc`, while bare `pkga` depends on neither — installs both gated
dependencies; installing bare `pkga` installs neither; and in general
every expanded dependency comes from a metadata entry whose marker holds
under the base environment or a requested extra, so a dependency gated by
an unrequested extra is never enqueued. -/
theorem claim_C5 :
    (∀ (meta : PkgMeta) (extras : List String) (r : Requirement),
        r ∈ expandDeps meta extras →
        ∃ d ∈ meta.deps, d.req = r ∧ depApplies extras d = true) ∧
    Except.map (fun st => List.map ResolvedWheel.name st.wheels)
        (installPkgs envC5 10 false true false [reqPkgaFull]) =
      Except.ok ["pkga", "depb", "depc"] ∧
    Except.map (fun st => List.map ResolvedWheel.name st.wheels)
        (installPkgs envC5 10 false true false [reqNamed "pkga"]) =
      Except.ok ["pkga"] ∧
    expandDeps metaPkga [] = [] := by
  refine ⟨?_, by decide, by decide, by decide⟩
  intro meta extras r h
  exact expandDeps_mem h

/-- Witness for C5: `depb` is expanded for `pkga[full]` because its
`extra == full` marker holds under the requested extra. -/
theorem claim_C5_witness :
    ∃ d ∈ metaPkga.deps, d.req = reqNamed "depb" ∧ depApplies ["full"] d = true :=
  claim_C5.1 metaPkga ["full"] (reqNamed "depb") (by decide)

/-- Claim C9: freeze is a pure projection of the state already held — its
keys are exactly the wheels' names, with no new resolution — and after
installing `dummy` with direct dependencies `dep1` and `dep2` it maps each
package to its version, its direct dependency names gathered during
resolution (empty for the leaves) and the top-level import names the
Metadata Extractor reported. -/
theorem claim_C9 :
    (∀ st : TransState,
        List.map Prod.fst (freeze st) = List.map ResolvedWheel.name st.wheels) ∧
    Except.map freeze (installPkgs envC9 10 false true false [reqNamed "dummy"]) =
      Except.ok
        [("dummy",
          { version := v100, depends := ["dep1", "dep2"], imports := ["abc", "def", "geh"] }),
         ("dep1", { version := v100, depends := [], imports := ["c", "h", "i"] }),
         ("dep2", { version := v100, depends := [], imports := ["a12", "b13"] })] := by
  refine ⟨?_, by decide⟩
  intro st
  unfold freeze
  rw [List.map_map]
  rfl

end Micropip
